import Mathlib

/-!
Verification of the BitBot grouping and cleaning subsystem.

This file gives a shallow embedding, over exact rational arithmetic, of
the windowed grouper (`src/grouper/src/main.py`, class `Grouper`) and of
the cleaning stage (`src/limpieza/src/main.py`, class `Cleaner`, and
`src/limpieza/src/balance_clases.py`, class `BalanceadorClases`), and
proves or refutes the behavioural claims made about them.

Conventions of the embedding:
* pandas DataFrames of candles become `List Candle`; row access by
  integer position (`iloc`) becomes `List.getD` (all positions produced
  by the code are in range, so the default is never read);
* Python float arithmetic is embedded as exact `ℚ` arithmetic; the one
  place where the float semantics is essential (division by an exactly
  zero denominator, which numpy float64 maps to plus or minus infinity
  or NaN instead of raising) is made explicit in
  `calculate_predict_candle` below;
* code that can raise is embedded in `Except String`.
-/

namespace BitBot

/-! ## Grouper (`src/grouper/src/main.py`)

One row of the input table `bitcoin_candles.csv`: the per-candle OHLC
fields used by `Grouper._extract_candle_features`, and the date metadata
fields copied by `Grouper._calculate_dates`. -/

structure Candle where
  entrada_vela_1 : ℚ
  salida_vela_1 : ℚ
  Max_vela_1 : ℚ
  Min_vela_1 : ℚ
  porcentaje_retorno_vela_1 : ℚ
  fecha : String
  hora_inicial : String
  hora_final : String
  dia : Int
  mes : Int
  anio : Int
  dia_semana : String
deriving DecidableEq, Inhabited

/-- The five numeric features extracted from one candle for one window
position by `Grouper._extract_candle_features`. -/
structure VelaFeatures where
  entrada : ℚ
  salida : ℚ
  maxv : ℚ
  minv : ℚ
  retorno : ℚ
deriving DecidableEq, Inhabited

/-- Embeds `Grouper._extract_candle_features` (the position suffix of the
dictionary keys becomes the position of the entry in `GroupRow.velas`). -/
def extract_candle_features (c : Candle) : VelaFeatures :=
  ⟨c.entrada_vela_1, c.salida_vela_1, c.Max_vela_1, c.Min_vela_1, c.porcentaje_retorno_vela_1⟩

/-- One output row of the grouper: per-position features (keys
`entrada_vela_p` ... for `p` in `1..W` become `velas`, position `p`
stored at index `p - 1`), the metadata of the first candle of the
window, and the label `is_alcista`. -/
structure GroupRow where
  velas : List VelaFeatures
  fecha : String
  hora_inicial : String
  hora_final : String
  dia : Int
  mes : Int
  anio : Int
  dia_semana : String
  is_alcista : Nat
deriving DecidableEq, Inhabited

/-- Embeds the label computation of `Grouper._calculate_predict_candle`:
`return_percentage = (predict_price - last_price) / last_price`, label
`1` iff the quotient is strictly above the threshold.  The source
performs the division with no guard on numpy float64 values, so a zero
`last_price` does not raise: numpy maps `x / 0.0` to `+inf` for `x > 0`,
`-inf` for `x < 0` and `NaN` for `x = 0`, and of these only `+inf`
compares strictly above any threshold.  That case is made explicit here;
for a nonzero denominator the exact rational quotient is used. -/
def calculate_predict_candle (last_price predict_price threshold : ℚ) : Nat :=
  if last_price = 0 then
    if 0 < predict_price - last_price then 1 else 0
  else
    if threshold < (predict_price - last_price) / last_price then 1 else 0

/-- Embeds `Grouper._create_groups`: for `i` in
`range(n - window - future)` (empty when that integer is not positive,
exactly as a Python `range` of a negative length), the pair of the list
of window indices `range(i, i + window)` and the predict index
`i + window + future - 1`. -/
def create_groups (n window future : Nat) : List (List Nat × Nat) :=
  (List.range (((n : Int) - window - future).toNat)).map
    (fun i => ((List.range window).map (fun p => i + p), i + window + future - 1))

/-- Embeds `Grouper._process_group`: per-position features from the
candles at the window indices, date metadata from the first candle of
the window, and the label from `salida_vela_W` (the feature stored at
list index `window - 1`) and the open price of the predict candle. -/
def process_group (data : List Candle) (threshold : ℚ) (window : Nat)
    (g : List Nat × Nat) : GroupRow :=
  let velas := g.1.map (fun idx => extract_candle_features (data.getD idx default))
  let first := data.getD (g.1.getD 0 0) default
  let predict := data.getD g.2 default
  let last_price := (velas.getD (window - 1) default).salida
  { velas := velas
    fecha := first.fecha
    hora_inicial := first.hora_inicial
    hora_final := first.hora_final
    dia := first.dia
    mes := first.mes
    anio := first.anio
    dia_semana := first.dia_semana
    is_alcista := calculate_predict_candle last_price predict.entrada_vela_1 threshold }

/-- Embeds the composition `Grouper._create_dataframe_from_groups` after
`Grouper._create_groups`: one output row per group, in group order. -/
def group (data : List Candle) (window future : Nat) (threshold : ℚ) : List GroupRow :=
  (create_groups data.length window future).map (process_group data threshold window)

/-- The close of the candle at window position `window` of the window
starting at source index `i` (the `salida_vela_W` value of that row). -/
def last_close (data : List Candle) (window i : Nat) : ℚ :=
  (data.getD (i + window - 1) default).salida_vela_1

/-- The open price of the candle at source index
`i + window + future - 1`, read by the label computation. -/
def future_open (data : List Candle) (window future i : Nat) : ℚ :=
  (data.getD (i + window + future - 1) default).entrada_vela_1

/-- Concrete sample candle used by the witnesses: open price `o`, close
price `c`, all other numeric fields zero. -/
def sampleCandle (o c : ℚ) : Candle :=
  ⟨o, c, 0, 0, 0, "2024-01-01", "00:00", "00:05", 1, 1, 2024, "Lunes"⟩

/-! ## Cleaner: chronological partition (`src/limpieza/src/main.py`,
`Cleaner.partition_data`)

One row of the grouped dataset as seen by the cleaner.  The sort key is
the `date` column (embedded as an integer timestamp: any linearly
ordered time value); the remaining feature columns are opaque to the
partition and are abstracted as a list of rationals; `is_alcista` is the
binary label column. -/

structure DataRow where
  date : Int
  payload : List ℚ
  is_alcista : Bool
deriving DecidableEq

/-- A feature row of `x_train` / `x_test`: a `DataRow` with the
`is_alcista` column dropped (`self.data.drop(columns=["is_alcista"])`). -/
structure XRow where
  date : Int
  payload : List ℚ
deriving DecidableEq

/-- Dropping the label column from one row. -/
def drop_label (r : DataRow) : XRow := ⟨r.date, r.payload⟩

/-- The comparison used by `sort_values(by="date")`. -/
def byDate (a b : DataRow) : Prop := a.date ≤ b.date

instance : DecidableRel byDate := fun a b => Int.decLe a.date b.date

instance : IsTotal DataRow byDate := ⟨fun a b => Int.le_total a.date b.date⟩

instance : IsTrans DataRow byDate := ⟨fun _ _ _ hab hbc => le_trans hab hbc⟩

/-- Embeds `self.data.sort_values(by=date_column)`: the rows reordered
so that the `date` column is ascending.  The source delegates to the
pandas default sorting algorithm (`kind="quicksort"`), which pandas does
not guarantee to be stable; this embedding uses insertion sort, whose
tie-breaking behaviour is therefore an artifact of the embedding, and no
theorem below relies on the order of tied rows. -/
def sort_by_date (rows : List DataRow) : List DataRow :=
  List.insertionSort byDate rows

/-- Embeds `split_index = int(len(self.data) * (1 - self.test_size))`.
For `0 ≤ test_size ≤ 1` the Python `int()` truncation of a nonnegative
float coincides with the floor. -/
def split_index (n : Nat) (test_size : ℚ) : Nat :=
  (Int.floor ((n : ℚ) * (1 - test_size))).toNat

/-- Embeds `Cleaner.partition_data`: sort by `date`, split off the label
column, and cut both at `split_index`, the prefix becoming the train
split and the suffix the test split.  Returns
`(x_train, x_test, y_train, y_test)`. -/
def partition_data (test_size : ℚ) (rows : List DataRow) :
    List XRow × List XRow × List Bool × List Bool :=
  let s := sort_by_date rows
  let k := split_index s.length test_size
  ((s.take k).map drop_label, (s.drop k).map drop_label,
   (s.take k).map DataRow.is_alcista, (s.drop k).map DataRow.is_alcista)

/-! ## Cleaner: day-of-week encoding
(`src/limpieza/src/main.py`, `Cleaner.encode_dia_semana_ordinal`)

A cell of a pandas column: a string, a number, or the missing marker
(NaN). -/

inductive CellVal where
  | str (s : String)
  | num (q : ℚ)
  | missing
deriving DecidableEq

/-- A DataFrame as seen by the encoder: named columns of cells. -/
abbrev Table := List (String × List CellVal)

/-- Embeds `name in df.columns`. -/
def has_column (t : Table) (name : String) : Bool :=
  t.any (fun c => c.1 = name)

/-- Embeds `df[name]` (column read; `none` is a `KeyError`). -/
def get_column (t : Table) (name : String) : Option (List CellVal) :=
  (t.find? (fun c => c.1 = name)).map Prod.snd

/-- Embeds `df[name] = v` for an existing column `name`. -/
def set_column (t : Table) (name : String) (v : List CellVal) : Table :=
  t.map (fun c => if c.1 = name then (name, v) else c)

/-- The fixed `day_mapping` dictionary of
`Cleaner.encode_dia_semana_ordinal`. -/
def day_mapping (s : String) : Option ℚ :=
  if s = "Lunes" then some 0
  else if s = "Martes" then some 1
  else if s = "Miércoles" then some 2
  else if s = "Jueves" then some 3
  else if s = "Viernes" then some 4
  else if s = "Sábado" then some 5
  else if s = "Domingo" then some 6
  else none

/-- Embeds `Series.map(day_mapping)` on one cell: a value that is a key
of the dictionary is replaced by its image, and every other value —
unmapped strings, NaN, and in particular numbers such as the outputs
`0..6` of a previous encoding pass — becomes NaN. -/
def map_day (v : CellVal) : CellVal :=
  match v with
  | CellVal.str s =>
    match day_mapping s with
    | some n => CellVal.num n
    | none => CellVal.missing
  | _ => CellVal.missing

/-- The train and test feature tables held by the `Cleaner` while the
encoder runs. -/
structure EncoderState where
  x_train : Table
  x_test : Table
deriving DecidableEq

/-- Embeds `Cleaner.encode_dia_semana_ordinal`: if `dia_semana` is not
among the columns of `x_train` the method returns at once (only a
warning is logged) and neither split is touched — the presence check
reads `x_train` only; otherwise both the train and the test column are
mapped through `day_mapping`.  Reading a `dia_semana` column absent from
`x_test` in that second branch is a pandas `KeyError`, embedded as the
error case. -/
def encode_dia_semana_ordinal (st : EncoderState) : Except String EncoderState :=
  if has_column st.x_train "dia_semana" then
    match get_column st.x_train "dia_semana", get_column st.x_test "dia_semana" with
    | some ctr, some cte =>
      Except.ok
        ⟨set_column st.x_train "dia_semana" (ctr.map map_day),
         set_column st.x_test "dia_semana" (cte.map map_day)⟩
    | _, _ => Except.error "KeyError: dia_semana"
  else
    Except.ok st

/-! ## Balancer (`src/limpieza/src/balance_clases.py`,
`BalanceadorClases.apply_smote_temporal_safe`, and
`src/limpieza/src/main.py`, `Cleaner._balance_classes`)

Feature rows are opaque to the balancing control flow and are abstracted
as lists of rationals; the binary `is_alcista` label becomes `Bool`. -/

abbrev Feat := List ℚ

/-- The type of the external SMOTE library call
(`SMOTE(...).fit_resample(X, y)`): it receives the (clamped) number of
neighbours, the sampling strategy and the data, and either returns the
resampled data or raises.  The library is outside the repository, so the
embedding is parameterized over it. -/
abbrev SmoteFn := Nat → ℚ → List Feat → List Bool → Except String (List Feat × List Bool)

/-- The count of the minority class as computed from
`y.value_counts()` / `idxmin`: only classes actually present in `y`
appear in `value_counts`, so when a single class is present it is both
the minority and the majority class. -/
def minority_count (y : List Bool) : Nat :=
  let cf := y.count false
  let ct := y.count true
  if cf = 0 then ct else if ct = 0 then cf else min cf ct

/-- The count of the majority class (`value_counts` / `idxmax`),
with the same single-class convention as `minority_count`. -/
def majority_count (y : List Bool) : Nat :=
  let cf := y.count false
  let ct := y.count true
  if cf = 0 then ct else if ct = 0 then cf else max cf ct

/-- Embeds `BalanceadorClases.apply_smote_temporal_safe` on already
separated features `X` and target `y`:
* an empty target makes `class_counts.idxmin()` raise (`ValueError`),
  embedded as the error case;
* if `k_neighbors >= minority_count`, `k_neighbors` is clamped to
  `max 1 (minority_count - 1)`;
* if `current_ratio >= sampling_strategy` the input is returned
  unchanged (SMOTE is skipped);
* otherwise the external SMOTE call runs with the clamped neighbour
  count, and its failure, if any, is re-raised unchanged (the source
  logs and re-raises). -/
def apply_smote_temporal_safe (smote : SmoteFn) (sampling_strategy : ℚ)
    (k_neighbors : Nat) (X : List Feat) (y : List Bool) :
    Except String (List Feat × List Bool) :=
  if y.isEmpty then Except.error "ValueError: idxmin of an empty series" else
  let mc := minority_count y
  let k := if mc ≤ k_neighbors then max 1 (mc - 1) else k_neighbors
  if sampling_strategy ≤ (mc : ℚ) / (majority_count y : ℚ) then Except.ok (X, y)
  else smote k sampling_strategy X y

/-- The four splits held by the `Cleaner` when `_balance_classes`
runs. -/
structure CleanerSplits where
  x_train : List Feat
  y_train : List Bool
  x_test : List Feat
  y_test : List Bool
deriving DecidableEq

/-- Embeds `Cleaner._balance_classes`: the train split is recombined
with its labels, passed through `apply_smote_temporal_safe`, and the
result replaces `x_train` / `y_train` (the `reset_index` calls only
renumber rows); `x_test` and `y_test` are never read nor written, and
any failure of the balancing propagates. -/
def balance_classes (smote : SmoteFn) (sampling_strategy : ℚ) (k_neighbors : Nat)
    (st : CleanerSplits) : Except String CleanerSplits :=
  match apply_smote_temporal_safe smote sampling_strategy k_neighbors st.x_train st.y_train with
  | Except.error e => Except.error e
  | Except.ok (Xb, yb) =>
    Except.ok ⟨Xb, yb, st.x_test, st.y_test⟩

/-- A SMOTE stand-in that returns its input unchanged, used by
witnesses. -/
def smote_id : SmoteFn := fun _ _ X y => Except.ok (X, y)

/-- A SMOTE stand-in that always fails, used to show that a code path
does not reach the library call. -/
def smote_fail : SmoteFn := fun _ _ _ _ => Except.error "ValueError: SMOTE"

end BitBot

namespace BitBot

theorem group_length (data : List Candle) (window future : Nat) (threshold : ℚ) :
    (group data window future threshold).length
      = (((data.length : Int) - window - future)).toNat := by
  simp [group, create_groups]

theorem group_getD (data : List Candle) (window future : Nat) (threshold : ℚ) (i : Nat)
    (hi : i < (group data window future threshold).length) :
    (group data window future threshold).getD i default
      = process_group data threshold window
          ((List.range window).map (fun p => i + p), i + window + future - 1) := by
  rw [group_length] at hi
  have hi2 : i < data.length - window - future := by omega
  simp [group, create_groups, List.getD_eq_getElem?_getD, List.getElem?_map,
    List.getElem?_range hi2]

theorem process_group_is_alcista (data : List Candle) (window future : Nat)
    (threshold : ℚ) (i : Nat) (hW : 1 ≤ window) :
    (process_group data threshold window
        ((List.range window).map (fun p => i + p), i + window + future - 1)).is_alcista
      = calculate_predict_candle (last_close data window i)
          (future_open data window future i) threshold := by
  have hlt : window - 1 < window := by omega
  have harith : i + (window - 1) = i + window - 1 := by omega
  simp only [process_group, last_close, future_open]
  congr 2
  rw [List.getD_eq_getElem?_getD, List.getElem?_map, List.getElem?_map,
    List.getElem?_range hlt]
  simp [extract_candle_features, harith]

/-- Claim C1: for every window starting at source index `i` with window size
`W ≥ 1`, future offset `F` and threshold `T`, when the close of the candle at
window position `W` (the `salida_vela_W` value, i.e. the close at source index
`i + W - 1`) is nonzero, the output row has `is_alcista = 1` if and only if
`(future_open - last_close) / last_close > T`, where `future_open` is the open
price of the candle at source index `i + W + F - 1`; otherwise the label is
`0` (in particular a forward return exactly equal to `T` yields `0`, because
the comparison is strict). -/
theorem grouper_label_rule (data : List Candle) (window future : Nat) (threshold : ℚ)
    (i : Nat) (hW : 1 ≤ window) (hi : i < (group data window future threshold).length)
    (hz : last_close data window i ≠ 0) :
    ((group data window future threshold).getD i default).is_alcista
      = if threshold < (future_open data window future i - last_close data window i)
            / last_close data window i then 1 else 0 := by
  rw [group_getD data window future threshold i hi,
    process_group_is_alcista data window future threshold i hW]
  simp [calculate_predict_candle, hz]

/-- Witness for claim C1: three candles, window size 1, future offset 1,
threshold 0; the single window has last close 100 and future open 101, and
the label is given by the strict threshold comparison. -/
theorem grouper_label_rule_witness :
    1 ≤ 1
      ∧ 0 < (group [sampleCandle 0 100, sampleCandle 101 0, sampleCandle 7 8] 1 1 0).length
      ∧ last_close [sampleCandle 0 100, sampleCandle 101 0, sampleCandle 7 8] 1 0 ≠ 0
      ∧ ((group [sampleCandle 0 100, sampleCandle 101 0, sampleCandle 7 8] 1 1 0).getD 0
            default).is_alcista
          = if (0 : ℚ) < (future_open [sampleCandle 0 100, sampleCandle 101 0, sampleCandle 7 8] 1 1 0
                - last_close [sampleCandle 0 100, sampleCandle 101 0, sampleCandle 7 8] 1 0)
              / last_close [sampleCandle 0 100, sampleCandle 101 0, sampleCandle 7 8] 1 0
            then 1 else 0 :=
  ⟨by decide, by decide, by decide,
    grouper_label_rule [sampleCandle 0 100, sampleCandle 101 0, sampleCandle 7 8] 1 1 0 0
      (by decide) (by decide) (by decide)⟩

/-- Claim C2: for every candle sequence of length `N`, window size `W` and
future offset `F`, the grouper produces exactly `max 0 (N - W - F)` labeled
rows; in particular when `N < W + F` the output is the empty list and, the
embedded function being total, no error is raised. -/
theorem grouper_window_count (data : List Candle) (window future : Nat) (threshold : ℚ) :
    ((group data window future threshold).length : Int)
      = max 0 ((data.length : Int) - window - future) := by
  rw [group_length]
  omega

/-- Claim C4 counterexample: on a concrete three-candle input whose single
window has a last in-window close exactly equal to zero, the grouper does
not fail at all: it still produces one labeled row, and the unguarded
division (which numpy float64 silently turns into `+inf` here) yields the
label `1`.  No `ComputationError` exists anywhere in the source. -/
theorem grouper_zero_close_counterexample :
    (group [sampleCandle 0 0, sampleCandle 5 1, sampleCandle 2 3] 1 1 (1 / 10000)).length = 1
      ∧ ((group [sampleCandle 0 0, sampleCandle 5 1, sampleCandle 2 3] 1 1
            (1 / 10000)).getD 0 default).is_alcista = 1 := by
  refine ⟨by decide, ?_⟩
  rw [group_getD _ 1 1 _ 0 (by decide), process_group_is_alcista _ 1 1 _ 0 (by decide)]
  have h1 : last_close [sampleCandle 0 0, sampleCandle 5 1, sampleCandle 2 3] 1 0 = 0 := by
    decide
  have h2 : future_open [sampleCandle 0 0, sampleCandle 5 1, sampleCandle 2 3] 1 1 0 = 5 := by
    decide
  rw [h1, h2]
  norm_num [calculate_predict_candle]

/-- Claim C4 (amended): for every window whose last in-window close is
exactly zero, the forward-label computation does not fail: the division is
performed unguarded (no `ComputationError` exists in the code), numpy float64
turns the quotient into plus or minus infinity or NaN, and a labeled row is
still produced, with `is_alcista = 1` exactly when `future_open > 0`. -/
theorem grouper_zero_close_label (data : List Candle) (window future : Nat)
    (threshold : ℚ) (i : Nat) (hW : 1 ≤ window)
    (hi : i < (group data window future threshold).length)
    (hz : last_close data window i = 0) :
    ((group data window future threshold).getD i default).is_alcista
      = if 0 < future_open data window future i then 1 else 0 := by
  rw [group_getD data window future threshold i hi,
    process_group_is_alcista data window future threshold i hW]
  simp [calculate_predict_candle, hz]

/-- Witness for the amended claim C4: a concrete window with last close `0`
and future open `5` yields the label `1` without any failure. -/
theorem grouper_zero_close_label_witness :
    1 ≤ 1
      ∧ 0 < (group [sampleCandle 0 0, sampleCandle 5 1, sampleCandle 2 3] 1 1 (1 / 10000)).length
      ∧ last_close [sampleCandle 0 0, sampleCandle 5 1, sampleCandle 2 3] 1 0 = 0
      ∧ ((group [sampleCandle 0 0, sampleCandle 5 1, sampleCandle 2 3] 1 1
            (1 / 10000)).getD 0 default).is_alcista
          = if 0 < future_open [sampleCandle 0 0, sampleCandle 5 1, sampleCandle 2 3] 1 1 0
            then 1 else 0 :=
  ⟨by decide, by decide, by decide,
    grouper_zero_close_label [sampleCandle 0 0, sampleCandle 5 1, sampleCandle 2 3] 1 1
      (1 / 10000) 0 (by decide) (by decide) (by decide)⟩

/-- Claim C3: for every input row sequence and every `test_fraction` in
`(0, 1)`, after the chronological split every date occurring in the train
split is at most every date occurring in the test split. -/
theorem split_non_leakage (rows : List DataRow) (t : ℚ) (h0 : 0 < t) (h1 : t < 1)
    (x y : XRow) (hx : x ∈ (partition_data t rows).1)
    (hy : y ∈ (partition_data t rows).2.1) :
    x.date ≤ y.date := by
  have hs : List.Sorted byDate (sort_by_date rows) :=
    List.sorted_insertionSort byDate rows
  simp only [partition_data] at hx hy
  obtain ⟨a, ha, rfl⟩ := List.mem_map.mp hx
  obtain ⟨b, hb, rfl⟩ := List.mem_map.mp hy
  have hpair :
      List.Pairwise byDate
        ((sort_by_date rows).take (split_index (sort_by_date rows).length t)
          ++ (sort_by_date rows).drop (split_index (sort_by_date rows).length t)) := by
    rw [List.take_append_drop]
    exact hs
  exact (List.pairwise_append.mp hpair).2.2 a ha b hb

/-- Evaluation of the partition on the concrete witness input of claim C3:
two rows given in reverse time order, `test_size = 1/2`. -/
theorem partition_data_on_sample :
    partition_data (1 / 2) [⟨2, [], true⟩, ⟨1, [], false⟩]
      = ([⟨1, []⟩], [⟨2, []⟩], [false], [true]) := by
  norm_num [partition_data, sort_by_date, split_index, List.insertionSort,
    List.orderedInsert, byDate, drop_label]

/-- Witness for claim C3: on the two-row input the train row dated 1
precedes the test row dated 2. -/
theorem split_non_leakage_witness :
    (0 : ℚ) < 1 / 2 ∧ (1 / 2 : ℚ) < 1
      ∧ (⟨1, []⟩ : XRow) ∈ (partition_data (1 / 2) [⟨2, [], true⟩, ⟨1, [], false⟩]).1
      ∧ (⟨2, []⟩ : XRow) ∈ (partition_data (1 / 2) [⟨2, [], true⟩, ⟨1, [], false⟩]).2.1
      ∧ (⟨1, []⟩ : XRow).date ≤ (⟨2, []⟩ : XRow).date :=
  ⟨by norm_num, by norm_num,
    by rw [partition_data_on_sample]; decide,
    by rw [partition_data_on_sample]; decide,
    split_non_leakage [⟨2, [], true⟩, ⟨1, [], false⟩] (1 / 2) (by norm_num) (by norm_num)
      ⟨1, []⟩ ⟨2, []⟩ (by rw [partition_data_on_sample]; decide)
      (by rw [partition_data_on_sample]; decide)⟩

/-- Claim C6: whenever the current minority/majority ratio already meets the
positive target ratio, `apply_smote_temporal_safe` returns its input
unchanged: no rows are added, removed or modified and the external SMOTE
call never runs. -/
theorem balancer_fallback_A (smote : SmoteFn) (s : ℚ) (k : Nat)
    (X : List Feat) (y : List Bool) (h0 : 0 < s)
    (h : s ≤ (minority_count y : ℚ) / (majority_count y : ℚ)) :
    apply_smote_temporal_safe smote s k X y = Except.ok (X, y) := by
  have hy : y.isEmpty = false := by
    cases y with
    | nil =>
      exfalso
      simp [minority_count, majority_count] at h
      linarith
    | cons a ys => rfl
  simp [apply_smote_temporal_safe, hy, h]

/-- Witness for claim C6: a perfectly balanced two-class training split with
target ratio `4/5` is returned unchanged. -/
theorem balancer_fallback_A_witness :
    (0 : ℚ) < 4 / 5
      ∧ (4 / 5 : ℚ) ≤ (minority_count [false, false, true, true] : ℚ)
          / (majority_count [false, false, true, true] : ℚ)
      ∧ apply_smote_temporal_safe smote_id (4 / 5) 3 [[1], [2], [3], [4]]
          [false, false, true, true]
          = Except.ok ([[1], [2], [3], [4]], [false, false, true, true]) :=
  ⟨by norm_num, by norm_num [minority_count, majority_count],
    balancer_fallback_A smote_id (4 / 5) 3 [[1], [2], [3], [4]] [false, false, true, true]
      (by norm_num) (by norm_num [minority_count, majority_count])⟩

/-- Claim C7 counterexample: on a concrete training split whose minority
class has exactly one row (`minority_count ≤ 1`), the balancer does not
surface any error at all: because the class ratio `1/1` already meets the
target `4/5`, it silently returns the input unchanged — the SMOTE stand-in
used here fails whenever called, so the `ok` result also shows the library
call is never reached.  No `InsufficientDataError` exists in the source. -/
theorem balancer_insufficient_counterexample :
    minority_count [false, true] = 1
      ∧ apply_smote_temporal_safe smote_fail (4 / 5) 3 [[1], [2]] [false, true]
          = Except.ok ([[1], [2]], [false, true]) := by
  constructor
  · decide
  · norm_num [apply_smote_temporal_safe, minority_count, majority_count]

/-- Claim C7 (amended): for every nonempty training split where
`k_neighbors ≥ minority_count`, the balancer clamps `k_neighbors` to
`max 1 (minority_count - 1)` before oversampling; when the minority class
has at most one row no dedicated `InsufficientDataError` is surfaced:
if the current ratio already meets the target the input is returned
unchanged (a silent skip), and otherwise the external SMOTE call runs with
the clamped neighbour count (its own failure, if any, being re-raised
unchanged). -/
theorem balancer_clamp (smote : SmoteFn) (s : ℚ) (k : Nat)
    (X : List Feat) (y : List Bool) (hne : y ≠ [])
    (hk : minority_count y ≤ k) :
    apply_smote_temporal_safe smote s k X y
      = if s ≤ (minority_count y : ℚ) / (majority_count y : ℚ) then Except.ok (X, y)
        else smote (max 1 (minority_count y - 1)) s X y := by
  have hy : y.isEmpty = false := by
    cases y with
    | nil => exact absurd rfl hne
    | cons a ys => rfl
  simp [apply_smote_temporal_safe, hy, hk]

/-- Witness for the amended claim C7: minority count 1, majority count 4,
requested `k_neighbors = 3`; the clamp applies and the ratio `1/4` is below
the target `4/5`, so the oversampler is invoked with the clamped value 1. -/
theorem balancer_clamp_witness :
    ([false, true, true, true, true] : List Bool) ≠ []
      ∧ minority_count [false, true, true, true, true] ≤ 3
      ∧ apply_smote_temporal_safe smote_id (4 / 5) 3 [[1], [2], [3], [4], [5]]
            [false, true, true, true, true]
          = if (4 / 5 : ℚ) ≤ (minority_count [false, true, true, true, true] : ℚ)
                / (majority_count [false, true, true, true, true] : ℚ)
            then Except.ok ([[1], [2], [3], [4], [5]], [false, true, true, true, true])
            else smote_id (max 1 (minority_count [false, true, true, true, true] - 1)) (4 / 5)
              [[1], [2], [3], [4], [5]] [false, true, true, true, true] :=
  ⟨by decide, by decide,
    balancer_clamp smote_id (4 / 5) 3 [[1], [2], [3], [4], [5]]
      [false, true, true, true, true] (by decide) (by decide)⟩

/-- Claim C8 counterexample: applying the encoder a second time to an
already-encoded column does not leave it unchanged — `Series.map` with the
day dictionary sends the encoded value `0` (not a dictionary key) to the
missing marker. -/
theorem encoder_idempotence_counterexample :
    List.map map_day (List.map map_day [CellVal.str "Lunes"])
      ≠ List.map map_day [CellVal.str "Lunes"] := by decide

/-- Claim C8 (amended): the day-of-week encoder maps via the fixed table
`Lunes ↦ 0` through `Domingo ↦ 6` and maps every unmapped value to the
missing marker, but it is not idempotent: a second application maps every
value — in particular every already-encoded number — to the missing
marker, because `Series.map` sends all non-key values to NaN. -/
theorem encoder_mapping :
    map_day (CellVal.str "Lunes") = CellVal.num 0
      ∧ map_day (CellVal.str "Martes") = CellVal.num 1
      ∧ map_day (CellVal.str "Miércoles") = CellVal.num 2
      ∧ map_day (CellVal.str "Jueves") = CellVal.num 3
      ∧ map_day (CellVal.str "Viernes") = CellVal.num 4
      ∧ map_day (CellVal.str "Sábado") = CellVal.num 5
      ∧ map_day (CellVal.str "Domingo") = CellVal.num 6
      ∧ (∀ s, day_mapping s = none → map_day (CellVal.str s) = CellVal.missing)
      ∧ (∀ v, map_day (map_day v) = CellVal.missing) := by
  refine ⟨by decide, by decide, by decide, by decide, by decide, by decide, by decide, ?_, ?_⟩
  · intro s hs
    simp [map_day, hs]
  · intro v
    cases v with
    | str s =>
      rcases h : day_mapping s with _ | n <;> simp [map_day, h]
    | num q => rfl
    | missing => rfl

/-- Witness for the amended claim C8: the unmapped month name `Enero`
becomes the missing marker, and re-encoding the encoding of `Lunes` yields
the missing marker rather than `0`. -/
theorem encoder_mapping_witness :
    day_mapping "Enero" = none
      ∧ map_day (CellVal.str "Enero") = CellVal.missing
      ∧ map_day (map_day (CellVal.str "Lunes")) = CellVal.missing :=
  ⟨by decide, encoder_mapping.2.2.2.2.2.2.2.1 "Enero" (by decide),
    encoder_mapping.2.2.2.2.2.2.2.2 (CellVal.str "Lunes")⟩

/-- Claim C9: running the balancing stage modifies only the train split:
whatever the external oversampler returns, the test feature rows and test
labels after `_balance_classes` are exactly the ones before. -/
theorem balance_classes_preserves_test (smote : SmoteFn) (s : ℚ) (k : Nat)
    (st st2 : CleanerSplits)
    (h : balance_classes smote s k st = Except.ok st2) :
    st2.x_test = st.x_test ∧ st2.y_test = st.y_test := by
  unfold balance_classes at h
  rcases hres : apply_smote_temporal_safe smote s k st.x_train st.y_train with e | ⟨Xb, yb⟩ <;>
    rw [hres] at h
  · exact absurd h (by simp)
  · simp only [Except.ok.injEq] at h
    subst h
    exact ⟨rfl, rfl⟩

/-- Evaluation of the balancing stage on the concrete witness state of
claim C9: the train split is already balanced, so the state is returned
unchanged. -/
theorem balance_classes_on_sample :
    balance_classes smote_id (4 / 5) 3 ⟨[[1], [2]], [false, true], [[9]], [true]⟩
      = Except.ok ⟨[[1], [2]], [false, true], [[9]], [true]⟩ := by
  norm_num [balance_classes, apply_smote_temporal_safe, minority_count, majority_count]

/-- Witness for claim C9: on a concrete state the balancing stage succeeds
and the test split is untouched. -/
theorem balance_classes_preserves_test_witness :
    balance_classes smote_id (4 / 5) 3 ⟨[[1], [2]], [false, true], [[9]], [true]⟩
        = Except.ok ⟨[[1], [2]], [false, true], [[9]], [true]⟩
      ∧ (⟨[[1], [2]], [false, true], [[9]], [true]⟩ : CleanerSplits).x_test = [[9]]
      ∧ (⟨[[1], [2]], [false, true], [[9]], [true]⟩ : CleanerSplits).y_test = [true] :=
  ⟨balance_classes_on_sample,
    (balance_classes_preserves_test smote_id (4 / 5) 3
      ⟨[[1], [2]], [false, true], [[9]], [true]⟩
      ⟨[[1], [2]], [false, true], [[9]], [true]⟩ balance_classes_on_sample).1,
    (balance_classes_preserves_test smote_id (4 / 5) 3
      ⟨[[1], [2]], [false, true], [[9]], [true]⟩
      ⟨[[1], [2]], [false, true], [[9]], [true]⟩ balance_classes_on_sample).2⟩

/-- Claim C10: if the `dia_semana` column is absent from the train split,
the encoder returns without raising and leaves both splits entirely
unchanged — the presence check reads the train split only, so this holds
even when the test split does contain the column. -/
theorem encode_missing_column (st : EncoderState)
    (h : has_column st.x_train "dia_semana" = false) :
    encode_dia_semana_ordinal st = Except.ok st := by
  simp [encode_dia_semana_ordinal, h]

/-- Witness for claim C10: the train table lacks `dia_semana` while the
test table has it; the encoder is the identity and raises nothing. -/
theorem encode_missing_column_witness :
    has_column ([("foo", [CellVal.num 1])] : Table) "dia_semana" = false
      ∧ encode_dia_semana_ordinal
            ⟨[("foo", [CellVal.num 1])], [("dia_semana", [CellVal.str "Lunes"])]⟩
          = Except.ok ⟨[("foo", [CellVal.num 1])], [("dia_semana", [CellVal.str "Lunes"])]⟩ :=
  ⟨by decide,
    encode_missing_column ⟨[("foo", [CellVal.num 1])], [("dia_semana", [CellVal.str "Lunes"])]⟩
      (by decide)⟩

end BitBot
